import Mathlib

/-!
# Verification of the `force:source:deploy` / `force:source:deploy:report` orchestration

Shallow embedding of the two command classes of the plugin
(`src/commands/force/source/deploy.ts` and
`src/commands/force/source/deploy/report.ts`).  The commands are glue code
around external collaborators (component-set builder, deploy transport,
source-tracking library, result formatters); each external call is embedded as
a lookup into an environment record holding that call's result, and the
observable behaviour of a command run is a trace of effect events plus a
final result.
-/

/-- Status of a deploy, as enumerated in the data model. -/
inductive DeployStatus
  | Queued
  | InProgress
  | Succeeded
  | Failed
  | Canceled
  | SucceededPartially
  deriving DecidableEq, Repr

/-- The outcome record of a deploy attempt: request id, status and
test-run count (the only response fields the commands read). -/
structure DeployResultRec where
  id : String
  status : DeployStatus
  numberTestsTotal : Nat
  deriving DecidableEq, Repr

/-- The parsed flags of `force:source:deploy` (`Deploy.flagsConfig`).
`wait` is in minutes, `0` meaning asynchronous.  `json` is the framework's
machine-output flag.  An `Option` field is `none` when the flag was not
provided on the command line. -/
structure Flags where
  checkonly : Bool
  soapdeploy : Bool
  wait : Nat
  testlevel : Option String
  runtests : Option (List String)
  ignoreerrors : Bool
  ignorewarnings : Bool
  purgeondelete : Bool
  validateddeployrequestid : Option String
  metadata : Option (List String)
  sourcepath : Option (List String)
  manifest : Option String
  tracksource : Bool
  forceoverwrite : Bool
  coverageformatters : Option (List String)
  junit : Bool
  verbose : Bool
  json : Bool
  deriving DecidableEq, Repr

/-- Warning messages the deploy command can emit via `this.warn` / `ux.warn`. -/
inductive WarnMsg
  | asyncCoverageJunitWarning
  | deployWontDelete
  deriving DecidableEq, Repr

/-- Observable effect events of a command run, in program order: calls into
the external collaborators, lifecycle emissions, and output-channel writes. -/
inductive Event
  | warned (m : WarnMsg)
  | calledTrackingSetup
  | calledDeployRecentValidation
  | calledComponentSetBuild
  | calledFilterConflicts
  | calledGetChanges
  | emittedPredeploy
  | calledComponentSetDeploy
  | renderedProgress
  | calledPollStatus
  | emittedPostdeploy
  | calledUpdateTracking
  | calledCreateRequestedReports
  | displayedResult
  | fetchedDeployStatus
  deriving DecidableEq, Repr

/-- Errors of the deploy command's orchestration layer. -/
inductive DeployErr
  | configurationError
  | conflictError
  deriving DecidableEq, Repr

/-- Results of the external calls made during one deploy invocation:
the component set produced by `ComponentSetBuilder.build`, the local and
remote change sets read from the tracking store, the pending local deletes
returned by `tracking.getChanges({origin: local, state: delete})`,
the id handed back by `componentSet.deploy`, the `DeployResult` produced by
`deploy.pollStatus`, and the `DeployResult` produced by the replay-by-id
transport `deployRecentValidation`. -/
structure DeployEnv where
  buildResult : List String
  localChanges : List String
  remoteChanges : List String
  localDeletes : List String
  deployId : String
  pollResult : DeployResultRec
  recentValidationResult : DeployResultRec
  useProgressBar : Bool
  deriving DecidableEq, Repr

/-- Modelled from the spec: `filterConflictsByComponentSet` lives in
`src/trackingFunctions.ts`, which is not under `src/` here.  Per the spec,
the filter computes the intersection between the local and remote change
sets and the resolved component set; a conflicting path is one present in
both the local and the remote change set and in the component set. -/
def conflictPaths (localCh remoteCh comps : List String) : List String :=
  (localCh.filter (fun p => remoteCh.contains p)).filter (fun p => comps.contains p)

/-- Modelled from the spec: the body of `deployRecentValidation` lives in
`deployCommand.ts`, which is not under `src/`.  Per the spec the replay-by-id
transport is `deployRecentValidation(id) → DeployResult`; no component set is
built and no polling of a deploy handle occurs in this layer. -/
def deployRecentValidation (env : DeployEnv) : DeployResultRec :=
  env.recentValidationResult

namespace Deploy

/-- The four mutually exclusive input-mode flags (`xorFlags` in the source). -/
def xorCount (f : Flags) : Nat :=
  (if f.manifest.isSome then 1 else 0) +
  (if f.metadata.isSome then 1 else 0) +
  (if f.sourcepath.isSome then 1 else 0) +
  (if f.validateddeployrequestid.isSome then 1 else 0)

/-- Modelled from the spec: flag acceptance is enforced by the external
command framework before `run` executes (§4.1 of the spec).  The source's
`flagsConfig` declares `exactlyOne: xorFlags` on each of the four input-mode
flags, `exclusive` constraints on `validateddeployrequestid` and
`tracksource`, and `dependsOn` constraints on `purgeondelete` and
`forceoverwrite`; an invocation violating any of them fails with a
`ConfigurationError` before the command body runs. -/
def flagsAccepted (f : Flags) : Bool :=
  xorCount f == 1
  && !(f.validateddeployrequestid.isSome
        && (f.checkonly || f.testlevel.isSome || f.runtests.isSome || f.tracksource))
  && !(f.tracksource && f.checkonly)
  && (!f.purgeondelete || f.manifest.isSome)
  && (!f.forceoverwrite || f.tracksource)

/-- The mutable fields the command object accumulates while `deploy()` runs,
plus the trace of effects and the error it aborted with, if any.
`deployResult` is `this.deployResult`, `asyncId` is `this.asyncDeployResult`
(the minimal `{id}` handle), `isAsync` is `this.isAsync`. -/
structure Outcome where
  trace : List Event
  error : Option DeployErr
  deployResult : Option DeployResultRec
  asyncId : Option String
  isAsync : Bool
  deriving DecidableEq, Repr

/-- Embedding of `Deploy.deploy()` (src/commands/force/source/deploy.ts,
lines 164-257).  Branches in source order: the async coverage/junit warning;
the `validateddeployrequestid` replay branch; otherwise component-set build,
the tracking block (conflict filter unless `forceoverwrite`, then the
local-deletes warning), the `predeploy` emission, the submission call,
and — when not async — progress rendering (suppressed in JSON mode) and the
status poll; finally `postdeploy` is emitted iff `this.deployResult` is set. -/
def deploy (f : Flags) (env : DeployEnv) : Outcome :=
  let isAsync := f.wait == 0
  let t0 : List Event :=
    if isAsync && (f.coverageformatters.isSome || f.junit) then
      [Event.warned WarnMsg.asyncCoverageJunitWarning]
    else []
  let core : Outcome :=
    if f.validateddeployrequestid.isSome then
      let dr := deployRecentValidation env
      { trace := t0 ++ [Event.calledDeployRecentValidation], error := none,
        deployResult := some dr, asyncId := some dr.id, isAsync := isAsync }
    else
      let comps := env.buildResult
      let t1 := t0 ++ [Event.calledComponentSetBuild]
      if f.tracksource && !f.forceoverwrite
          && !(conflictPaths env.localChanges env.remoteChanges comps).isEmpty then
        { trace := t1 ++ [Event.calledFilterConflicts],
          error := some DeployErr.conflictError,
          deployResult := none, asyncId := none, isAsync := isAsync }
      else
        let t2 := t1 ++
          (if f.tracksource then
            (if !f.forceoverwrite then [Event.calledFilterConflicts] else [])
              ++ [Event.calledGetChanges]
              ++ (if !env.localDeletes.isEmpty then
                    [Event.warned WarnMsg.deployWontDelete] else [])
          else [])
        let t3 := t2 ++ [Event.emittedPredeploy, Event.calledComponentSetDeploy]
        if isAsync then
          { trace := t3, error := none, deployResult := none,
            asyncId := some env.deployId, isAsync := isAsync }
        else
          let t4 := t3 ++ (if !f.json then [Event.renderedProgress] else [])
            ++ [Event.calledPollStatus]
          { trace := t4, error := none, deployResult := some env.pollResult,
            asyncId := some env.deployId, isAsync := isAsync }
  if core.error.isNone && core.deployResult.isSome then
    { core with trace := core.trace ++ [Event.emittedPostdeploy] }
  else core

end Deploy

/-- The machine-serializable result object returned by a command run.
Modelled from the spec: the result formatters live under `src/formatters/`,
which is not under `src/` here.  Per the spec, the async formatter's machine
result is the minimal record `{id}` (the `AsyncDeployHandle`), and the full
formatter returns the terminal `DeployResult` object. -/
inductive CommandResult
  | asyncResult (id : Option String)
  | fullResult (r : Option DeployResultRec)
  deriving DecidableEq, Repr

namespace Deploy

/-- Embedding of `Deploy.formatResult()` (lines 259-291): when not async,
`maybeCreateRequestedReports` runs; the formatter's `display()` runs only
when the JSON flag is unset; `getJson()` is returned either way, the async
formatter holding `this.asyncDeployResult` and the full formatter holding
`this.deployResult`. -/
def formatResult (f : Flags) (o : Outcome) : List Event × CommandResult :=
  let reports : List Event :=
    if !o.isAsync then [Event.calledCreateRequestedReports] else []
  let disp : List Event := if !f.json then [Event.displayedResult] else []
  (reports ++ disp,
   if o.isAsync then CommandResult.asyncResult o.asyncId
   else CommandResult.fullResult o.deployResult)

/-- Embedding of the whole `Deploy.run()` pipeline: framework flag
validation (a `ConfigurationError` before the command body runs), then
`preChecks()` (tracking setup when `tracksource`), `deploy()`,
`maybeUpdateTracking()` and `formatResult()`.  Returns the effect trace in
program order together with the command's result or error. -/
def run (f : Flags) (env : DeployEnv) : List Event × Except DeployErr CommandResult :=
  if !flagsAccepted f then ([], Except.error DeployErr.configurationError)
  else
    let pre : List Event := if f.tracksource then [Event.calledTrackingSetup] else []
    let o := deploy f env
    match o.error with
    | some e => (pre ++ o.trace, Except.error e)
    | none =>
      let upd : List Event := if f.tracksource then [Event.calledUpdateTracking] else []
      let fr := formatResult f o
      (pre ++ o.trace ++ upd ++ fr.1, Except.ok fr.2)

end Deploy

/-- A value thrown by `deploy.pollStatus` in the report command:
whether it is an `Error` instance, and its message. -/
structure PollErr where
  isErrorInstance : Bool
  message : String
  deriving DecidableEq, Repr

/-- The parsed flags of `force:source:deploy:report` (`Report.flagsConfig`).
`wait` has a minimum of one minute. -/
structure ReportFlags where
  wait : Nat
  jobid : Option String
  verbose : Bool
  coverageformatters : Option (List String)
  junit : Bool
  json : Bool
  deriving DecidableEq, Repr

/-- Results of the external calls made during one report invocation:
whether `deploy.pollStatus` threw (and what), and the `DeployResult`
fetched by `this.report(deployId)`. -/
structure ReportEnv where
  pollOutcome : Option PollErr
  fetchedResult : DeployResultRec
  useProgressBar : Bool
  deriving DecidableEq, Repr

/-- Holds iff `pat` is a prefix of `s` or occurs further inside it. -/
def charsContain (pat : List Char) : List Char → Bool
  | [] => pat.isEmpty
  | c :: rest => pat.isPrefixOf (c :: rest) || charsContain pat rest

/-- Holds iff `pat` occurs as a substring of `s` (JavaScript
`String.prototype.includes`). -/
def containsSubstr (s pat : String) : Bool :=
  charsContain pat.data s.data

/-- The transport wording matched by the report command's catch clause. -/
def clientTimedOutWording : String := "The client has timed out"

namespace Report

/-- The catch clause of `Report.doReport` (report.ts lines 98-103) swallows
an error iff it is an `Error` instance whose message includes the
client-timed-out wording. -/
def swallows (e : PollErr) : Bool :=
  e.isErrorInstance && containsSubstr e.message clientTimedOutWording

/-- The fields `Report.doReport` leaves on the command object: the trace,
the error it re-threw (if any), and `this.deployResult`, which the
`finally` block always sets from `this.report(deployId)`. -/
structure Outcome where
  trace : List Event
  error : Option PollErr
  deployResult : Option DeployResultRec
  deriving DecidableEq, Repr

/-- Embedding of `Report.doReport()` (report.ts lines 63-107): progress
rendering unless JSON mode, then `deploy.pollStatus` inside
try/catch/finally — a thrown error is swallowed iff it is an `Error` whose
message includes the client-timed-out wording, any other thrown value is
re-thrown; the `finally` block fetches the deploy status into
`this.deployResult` in every case. -/
def doReport (f : ReportFlags) (env : ReportEnv) : Outcome :=
  let t0 : List Event := if !f.json then [Event.renderedProgress] else []
  let t1 := t0 ++ [Event.calledPollStatus]
  let err : Option PollErr :=
    match env.pollOutcome with
    | none => none
    | some e => if swallows e then none else some e
  { trace := t1 ++ [Event.fetchedDeployStatus], error := err,
    deployResult := some env.fetchedResult }

/-- Embedding of `Report.resolveSuccess()` (report.ts lines 109-114): a
no-op — it leaves the process exit code unchanged whatever
`this.deployResult` holds. -/
def resolveSuccess (exitCode : Nat) : Nat := exitCode

/-- Embedding of `Report.formatResult()` (report.ts lines 116-132):
`maybeCreateRequestedReports` runs unconditionally; the formatter's
`display()` runs only when the JSON flag is unset; `getJson()` returns the
full `DeployResult` object either way. -/
def formatResult (f : ReportFlags) (o : Outcome) : List Event × CommandResult :=
  let disp : List Event := if !f.json then [Event.displayedResult] else []
  ([Event.calledCreateRequestedReports] ++ disp,
   CommandResult.fullResult o.deployResult)

/-- Embedding of `Report.run()`: `doReport()`, then `resolveSuccess()` (a
no-op, so the exit code stays `0`), then `formatResult()`.  An error
re-thrown by `doReport` propagates to the command framework as a failure;
otherwise the command succeeds with exit code `0` and the formatted
result. -/
def run (f : ReportFlags) (env : ReportEnv) :
    List Event × Except PollErr (CommandResult × Nat) :=
  let o := doReport f env
  match o.error with
  | some e => (o.trace, Except.error e)
  | none =>
    let fr := formatResult f o
    (o.trace ++ fr.1, Except.ok (fr.2, resolveSuccess 0))

end Report

/-! ## Shared helper lemmas -/

theorem mem_ite_list {α : Type} {c : Prop} [Decidable c] {a : α} {l : List α} :
    a ∈ (if c then l else []) ↔ c ∧ a ∈ l := by
  split <;> simp_all

theorem mem_conflictPaths {p : String} {localCh remoteCh comps : List String} :
    p ∈ conflictPaths localCh remoteCh comps ↔
      p ∈ localCh ∧ p ∈ remoteCh ∧ p ∈ comps := by
  simp only [conflictPaths, List.mem_filter, List.contains, List.elem_iff]
  tauto

theorem conflictPaths_not_empty {p : String} {localCh remoteCh comps : List String}
    (hl : p ∈ localCh) (hr : p ∈ remoteCh) (hc : p ∈ comps) :
    (conflictPaths localCh remoteCh comps).isEmpty = false := by
  have hm : p ∈ conflictPaths localCh remoteCh comps :=
    mem_conflictPaths.mpr ⟨hl, hr, hc⟩
  rcases h : conflictPaths localCh remoteCh comps with _ | _
  · rw [h] at hm; cases hm
  · simp [List.isEmpty]

namespace Deploy

/-- Outcome of `deploy()` on the validated-replay branch. -/
theorem deploy_replay_eq (f : Flags) (env : DeployEnv)
    (h : f.validateddeployrequestid.isSome = true) :
    deploy f env =
      { trace := (if (f.wait == 0) && (f.coverageformatters.isSome || f.junit)
            then [Event.warned WarnMsg.asyncCoverageJunitWarning] else [])
          ++ [Event.calledDeployRecentValidation, Event.emittedPostdeploy],
        error := none,
        deployResult := some (deployRecentValidation env),
        asyncId := some (deployRecentValidation env).id,
        isAsync := f.wait == 0 } := by
  simp [deploy, h]

theorem deploy_conflict_eq (f : Flags) (env : DeployEnv)
    (h1 : f.validateddeployrequestid = none)
    (h2 : f.tracksource = true) (h3 : f.forceoverwrite = false)
    (h4 : (conflictPaths env.localChanges env.remoteChanges env.buildResult).isEmpty
            = false) :
    deploy f env =
      { trace := (if (f.wait == 0) && (f.coverageformatters.isSome || f.junit)
            then [Event.warned WarnMsg.asyncCoverageJunitWarning] else [])
          ++ [Event.calledComponentSetBuild, Event.calledFilterConflicts],
        error := some DeployErr.conflictError,
        deployResult := none, asyncId := none,
        isAsync := f.wait == 0 } := by
  simp [deploy, h1, h2, h3, h4]

/-- The trace of the tracking block when no conflict aborts. -/
def trackTrace (f : Flags) (env : DeployEnv) : List Event :=
  if f.tracksource then
    (if !f.forceoverwrite then [Event.calledFilterConflicts] else [])
      ++ [Event.calledGetChanges]
      ++ (if !env.localDeletes.isEmpty then [Event.warned WarnMsg.deployWontDelete]
          else [])
  else []

theorem deploy_async_eq (f : Flags) (env : DeployEnv)
    (h1 : f.validateddeployrequestid = none)
    (h2 : (f.tracksource && !f.forceoverwrite
            && !(conflictPaths env.localChanges env.remoteChanges
                  env.buildResult).isEmpty) = false)
    (h3 : f.wait = 0) :
    deploy f env =
      { trace := (if f.coverageformatters.isSome || f.junit
            then [Event.warned WarnMsg.asyncCoverageJunitWarning] else [])
          ++ [Event.calledComponentSetBuild] ++ trackTrace f env
          ++ [Event.emittedPredeploy, Event.calledComponentSetDeploy],
        error := none, deployResult := none,
        asyncId := some env.deployId, isAsync := true } := by
  simp [deploy, trackTrace, h1, h2, h3]

theorem deploy_sync_eq (f : Flags) (env : DeployEnv)
    (h1 : f.validateddeployrequestid = none)
    (h2 : (f.tracksource && !f.forceoverwrite
            && !(conflictPaths env.localChanges env.remoteChanges
                  env.buildResult).isEmpty) = false)
    (h3 : (f.wait == 0) = false) :
    deploy f env =
      { trace := [Event.calledComponentSetBuild] ++ trackTrace f env
          ++ [Event.emittedPredeploy, Event.calledComponentSetDeploy]
          ++ (if !f.json then [Event.renderedProgress] else [])
          ++ [Event.calledPollStatus, Event.emittedPostdeploy],
        error := none, deployResult := some env.pollResult,
        asyncId := some env.deployId, isAsync := false } := by
  simp [deploy, trackTrace, h1, h2, h3]

/-- The conflict-abort condition of `deploy()` as a single boolean. -/
def conflictAborts (f : Flags) (env : DeployEnv) : Bool :=
  f.tracksource && !f.forceoverwrite
    && !(conflictPaths env.localChanges env.remoteChanges env.buildResult).isEmpty

/-- The poll call happens exactly on the component-set branch, with no
conflict abort and a nonzero wait. -/
theorem mem_trace_pollStatus (f : Flags) (env : DeployEnv) :
    Event.calledPollStatus ∈ (deploy f env).trace ↔
      f.validateddeployrequestid = none
      ∧ conflictAborts f env = false
      ∧ (f.wait == 0) = false := by
  rcases hv : f.validateddeployrequestid with _ | v
  · by_cases hc : conflictAborts f env = true
    · obtain ⟨⟨ht, hf⟩, he⟩ := by
        simpa [conflictAborts, Bool.and_eq_true] using hc
      rw [deploy_conflict_eq f env hv ht (by simpa using hf) (by simpa using he)]
      simp [hc, mem_ite_list]
    · have hc' : conflictAborts f env = false := by simpa using hc
      have hc'' : (f.tracksource && !f.forceoverwrite
          && !(conflictPaths env.localChanges env.remoteChanges
                env.buildResult).isEmpty) = false := hc'
      by_cases hw : (f.wait == 0) = true
      · rw [deploy_async_eq f env hv hc'' (by simpa using hw)]
        simp [hc', hw, trackTrace, mem_ite_list]
      · have hw' : (f.wait == 0) = false := by simpa using hw
        rw [deploy_sync_eq f env hv hc'' hw']
        simp [hc', hw', trackTrace, mem_ite_list]
  · rw [deploy_replay_eq f env (by simp [hv])]
    simp [hv, mem_ite_list]

/-- The field `this.deployResult` is set exactly on the replay branch or on a
conflict-free synchronous component-set deploy. -/
theorem deployResult_isSome_iff (f : Flags) (env : DeployEnv) :
    (deploy f env).deployResult.isSome = true ↔
      f.validateddeployrequestid.isSome = true
      ∨ (f.validateddeployrequestid = none ∧ conflictAborts f env = false
          ∧ (f.wait == 0) = false) := by
  rcases hv : f.validateddeployrequestid with _ | v
  · by_cases hc : conflictAborts f env = true
    · obtain ⟨⟨ht, hf⟩, he⟩ := by
        simpa [conflictAborts, Bool.and_eq_true] using hc
      rw [deploy_conflict_eq f env hv ht (by simpa using hf) (by simpa using he)]
      simp [hc]
    · have hc' : conflictAborts f env = false := by simpa using hc
      have hc'' : (f.tracksource && !f.forceoverwrite
          && !(conflictPaths env.localChanges env.remoteChanges
                env.buildResult).isEmpty) = false := hc'
      by_cases hw : (f.wait == 0) = true
      · rw [deploy_async_eq f env hv hc'' (by simpa using hw)]
        simp [hw]
      · have hw' : (f.wait == 0) = false := by simpa using hw
        rw [deploy_sync_eq f env hv hc'' hw']
        simp [hc', hw']
  · rw [deploy_replay_eq f env (by simp [hv])]
    simp

/-- The `postdeploy` event is emitted exactly when `this.deployResult` is set. -/
theorem mem_trace_postdeploy (f : Flags) (env : DeployEnv) :
    Event.emittedPostdeploy ∈ (deploy f env).trace ↔
      (deploy f env).deployResult.isSome = true := by
  rcases hv : f.validateddeployrequestid with _ | v
  · by_cases hc : conflictAborts f env = true
    · obtain ⟨⟨ht, hf⟩, he⟩ := by
        simpa [conflictAborts, Bool.and_eq_true] using hc
      rw [deploy_conflict_eq f env hv ht (by simpa using hf) (by simpa using he)]
      simp [mem_ite_list]
    · have hc' : conflictAborts f env = false := by simpa using hc
      have hc'' : (f.tracksource && !f.forceoverwrite
          && !(conflictPaths env.localChanges env.remoteChanges
                env.buildResult).isEmpty) = false := hc'
      by_cases hw : (f.wait == 0) = true
      · rw [deploy_async_eq f env hv hc'' (by simpa using hw)]
        simp [trackTrace, mem_ite_list]
      · have hw' : (f.wait == 0) = false := by simpa using hw
        rw [deploy_sync_eq f env hv hc'' hw']
        simp [trackTrace, mem_ite_list]
  · rw [deploy_replay_eq f env (by simp [hv])]
    simp [mem_ite_list]

theorem flagsAccepted_xorCount {f : Flags} (h : flagsAccepted f = true) :
    xorCount f = 1 := by
  unfold flagsAccepted at h
  simp only [Bool.and_eq_true, beq_iff_eq] at h
  exact h.1.1.1.1

end Deploy

/-! ## Concrete sample inputs -/

/-- Flags as parsed with every optional flag absent and default wait. -/
def baseFlags : Flags :=
  { checkonly := false, soapdeploy := false, wait := 33, testlevel := none,
    runtests := none, ignoreerrors := false, ignorewarnings := false,
    purgeondelete := false, validateddeployrequestid := none, metadata := none,
    sourcepath := none, manifest := none, tracksource := false,
    forceoverwrite := false, coverageformatters := none, junit := false,
    verbose := false, json := false }

/-- A plain `--sourcepath` invocation. -/
def pathFlags : Flags := { baseFlags with sourcepath := some ["classes"] }

/-- A `--validateddeployrequestid --wait 0` invocation. -/
def replayFlags : Flags :=
  { baseFlags with validateddeployrequestid := some "0Af000000000001", wait := 0 }

/-- A `--sourcepath --tracksource` invocation. -/
def trackingFlags : Flags := { pathFlags with tracksource := true }

/-- An environment with no conflicts and no pending deletes. -/
def sampleEnv : DeployEnv :=
  { buildResult := ["classes"], localChanges := [], remoteChanges := [],
    localDeletes := [], deployId := "0Af0",
    pollResult := { id := "0Af0", status := DeployStatus.Succeeded,
                    numberTestsTotal := 0 },
    recentValidationResult := { id := "0Af9", status := DeployStatus.Succeeded,
                                numberTestsTotal := 0 },
    useProgressBar := true }

/-- An environment where the component-set path `classes` is changed both
locally and remotely. -/
def conflictEnv : DeployEnv :=
  { sampleEnv with localChanges := ["classes"], remoteChanges := ["classes"] }

/-- An environment with one pending local delete that IS a member of the
resolved component set. -/
def deleteEnv : DeployEnv := { sampleEnv with localDeletes := ["classes"] }

/-- A plain report invocation. -/
def sampleReportFlags : ReportFlags :=
  { wait := 33, jobid := some "0Af0", verbose := false,
    coverageformatters := none, junit := false, json := false }

/-- A fetched deploy status whose terminal state is `Failed`. -/
def failedReportEnv : ReportEnv :=
  { pollOutcome := none, useProgressBar := true,
    fetchedResult := { id := "0Af0", status := DeployStatus.Failed,
                       numberTestsTotal := 3 } }

/-- A poll that threw the transport's client-timed-out error. -/
def timeoutReportEnv : ReportEnv :=
  { failedReportEnv with
    pollOutcome := some { isErrorInstance := true,
                          message := "The client has timed out" } }

/-! ## Claims -/

/-- C1: For every deploy invocation, exactly one of the four input-mode
flags {manifest, metadata, sourcepath, validateddeployrequestid} is
accepted: an invocation providing zero or more than one of them fails with
a `ConfigurationError` and an empty effect trace — in particular before any
network call — and any invocation that does not fail with a
`ConfigurationError` provided exactly one of them. -/
theorem deploy_exactly_one_input_mode (f : Flags) (env : DeployEnv) :
    (Deploy.xorCount f ≠ 1 →
      Deploy.run f env = ([], Except.error DeployErr.configurationError)) ∧
    ((Deploy.run f env).2 ≠ Except.error DeployErr.configurationError →
      Deploy.xorCount f = 1) := by
  by_cases hA : Deploy.flagsAccepted f = true
  · have hx := Deploy.flagsAccepted_xorCount hA
    exact ⟨fun h => absurd hx h, fun _ => hx⟩
  · have hA' : Deploy.flagsAccepted f = false := by simpa using hA
    have hrun : Deploy.run f env = ([], Except.error DeployErr.configurationError) := by
      simp [Deploy.run, hA']
    refine ⟨fun _ => hrun, fun hne => absurd ?_ hne⟩
    rw [hrun]

/-- C1 witness: an invocation with none of the four input-mode flags fails
with a `ConfigurationError` and an empty trace. -/
theorem deploy_exactly_one_input_mode_witness :
    Deploy.run baseFlags sampleEnv
      = ([], Except.error DeployErr.configurationError) :=
  (deploy_exactly_one_input_mode baseFlags sampleEnv).1 (by decide)

/-- C2: With tracking enabled and `forceoverwrite` unset, if some path is
in the local change set, the remote change set and the resolved component
set, then `componentSet.deploy` is never invoked (nor `pollStatus`) and the
command aborts with a `ConflictError`. -/
theorem deploy_conflict_blocks_submission (f : Flags) (env : DeployEnv)
    (p : String)
    (hA : Deploy.flagsAccepted f = true)
    (hv : f.validateddeployrequestid = none)
    (ht : f.tracksource = true) (hf : f.forceoverwrite = false)
    (hl : p ∈ env.localChanges) (hr : p ∈ env.remoteChanges)
    (hc : p ∈ env.buildResult) :
    (Deploy.run f env).2 = Except.error DeployErr.conflictError ∧
    Event.calledComponentSetDeploy ∉ (Deploy.run f env).1 ∧
    Event.calledPollStatus ∉ (Deploy.run f env).1 := by
  have h4 := conflictPaths_not_empty hl hr hc
  have hd := Deploy.deploy_conflict_eq f env hv ht hf h4
  simp [Deploy.run, hA, hd, mem_ite_list]

/-- C2 witness: a tracked `--sourcepath classes` deploy against an
environment where `classes` changed both locally and remotely aborts with a
`ConflictError` and never calls the submission or polling transports. -/
theorem deploy_conflict_blocks_submission_witness :
    (Deploy.run trackingFlags conflictEnv).2
        = Except.error DeployErr.conflictError ∧
    Event.calledComponentSetDeploy ∉ (Deploy.run trackingFlags conflictEnv).1 ∧
    Event.calledPollStatus ∉ (Deploy.run trackingFlags conflictEnv).1 :=
  deploy_conflict_blocks_submission trackingFlags conflictEnv "classes"
    (by decide) (by decide) (by decide) (by decide)
    (by decide) (by decide) (by decide)

/-- C3: For every deploy invocation with `wait = 0`, `pollStatus` is never
called, and whenever the command returns a result object it is the minimal
async record holding only the request identifier `{id}`. -/
theorem deploy_wait_zero_is_async (f : Flags) (env : DeployEnv)
    (h : f.wait = 0) :
    Event.calledPollStatus ∉ (Deploy.run f env).1 ∧
    (∀ r, (Deploy.run f env).2 = Except.ok r →
      ∃ i, r = CommandResult.asyncResult (some i)) := by
  by_cases hA : Deploy.flagsAccepted f = true
  · have hpoll : Event.calledPollStatus ∉ (Deploy.deploy f env).trace := by
      rw [Deploy.mem_trace_pollStatus]
      rintro ⟨-, -, hw⟩
      simp [h] at hw
    have hasync : (Deploy.deploy f env).isAsync = true := by
      rcases hv : f.validateddeployrequestid with _ | v
      · by_cases hcb : Deploy.conflictAborts f env = true
        · obtain ⟨⟨ht, hfo⟩, he⟩ := by
            simpa [Deploy.conflictAborts, Bool.and_eq_true] using hcb
          rw [Deploy.deploy_conflict_eq f env hv ht (by simpa using hfo)
            (by simpa using he)]
          simp [h]
        · have hc0 : Deploy.conflictAborts f env = false := by simpa using hcb
          have hc' : (f.tracksource && !f.forceoverwrite
              && !(conflictPaths env.localChanges env.remoteChanges
                    env.buildResult).isEmpty) = false := hc0
          rw [Deploy.deploy_async_eq f env hv hc' h]
      · rw [Deploy.deploy_replay_eq f env (by simp [hv])]
        simp [h]
    constructor
    · simp only [Deploy.run, hA, Bool.not_true, if_neg]
      rcases he : (Deploy.deploy f env).error with _ | e
      · simp [he, Deploy.formatResult, hasync, mem_ite_list, hpoll]
      · simp [he, mem_ite_list, hpoll]
    · intro r hr
      simp only [Deploy.run] at hr
      rw [if_neg (by simp [hA])] at hr
      rcases he : (Deploy.deploy f env).error with _ | e
      · simp only [he] at hr
        simp only [Deploy.formatResult, hasync, if_pos rfl, Except.ok.injEq] at hr
        rcases hid : (Deploy.deploy f env).asyncId with _ | i
        · exfalso
          rcases hv : f.validateddeployrequestid with _ | v
          · by_cases hcb : Deploy.conflictAborts f env = true
            · obtain ⟨⟨ht, hfo⟩, hee⟩ := by
                simpa [Deploy.conflictAborts, Bool.and_eq_true] using hcb
              have := Deploy.deploy_conflict_eq f env hv ht
                (by simpa using hfo) (by simpa using hee)
              rw [this] at he
              simp at he
            · have hc0 : Deploy.conflictAborts f env = false := by simpa using hcb
              have hc' : (f.tracksource && !f.forceoverwrite
                  && !(conflictPaths env.localChanges env.remoteChanges
                        env.buildResult).isEmpty) = false := hc0
              have := Deploy.deploy_async_eq f env hv hc' h
              rw [this] at hid
              simp at hid
          · have := Deploy.deploy_replay_eq f env (by simp [hv])
            rw [this] at hid
            simp at hid
        · refine ⟨i, ?_⟩
          rw [← hr, hid]
          simp
      · simp [he] at hr
  · have hA' : Deploy.flagsAccepted f = false := by simpa using hA
    simp [Deploy.run, hA']

/-- C3 witness: a `--wait 0` replay invocation never polls and returns the
minimal `{id}` record. -/
theorem deploy_wait_zero_is_async_witness :
    Event.calledPollStatus ∉ (Deploy.run replayFlags sampleEnv).1 ∧
    ∃ i, (Deploy.run replayFlags sampleEnv).2
        = Except.ok (CommandResult.asyncResult (some i)) := by
  have h := deploy_wait_zero_is_async replayFlags sampleEnv rfl
  refine ⟨h.1, ?_⟩
  obtain ⟨i, hi⟩ := h.2 (CommandResult.asyncResult (some "0Af9")) rfl
  refine ⟨i, ?_⟩
  rw [← hi]
  rfl

/-- C4 counterexample: the claim ties the `deployWontDelete` warning to a
pending local deletion *not represented in the component set*; the code
warns on any pending local deletion.  Here the only pending deletion
(`classes`) IS a member of the resolved component set — so the claim's
warning condition is false — yet the warning is emitted. -/
theorem deploy_delete_warning_counterexample :
    (∀ d ∈ deleteEnv.localDeletes, d ∈ deleteEnv.buildResult) ∧
    Event.warned WarnMsg.deployWontDelete
      ∈ (Deploy.deploy trackingFlags deleteEnv).trace := by decide

/-- C4 amended: with tracking enabled on the component-set branch and no
conflict abort, the `deployWontDelete` warning is emitted iff ANY local
deletion is pending — membership in the resolved component set plays no
role — and the deploy submission call still proceeds. -/
theorem deploy_warns_on_any_pending_delete (f : Flags) (env : DeployEnv)
    (hv : f.validateddeployrequestid = none) (ht : f.tracksource = true)
    (hnc : (f.forceoverwrite
        || (conflictPaths env.localChanges env.remoteChanges
              env.buildResult).isEmpty) = true) :
    (Event.warned WarnMsg.deployWontDelete ∈ (Deploy.deploy f env).trace ↔
      env.localDeletes ≠ []) ∧
    Event.calledComponentSetDeploy ∈ (Deploy.deploy f env).trace := by
  have hc' : (f.tracksource && !f.forceoverwrite
      && !(conflictPaths env.localChanges env.remoteChanges
            env.buildResult).isEmpty) = false := by
    rcases hf : f.forceoverwrite with _ | _ <;> simp_all
  by_cases hw : (f.wait == 0) = true
  · rw [Deploy.deploy_async_eq f env hv hc' (by simpa using hw)]
    simp [Deploy.trackTrace, ht, mem_ite_list, List.isEmpty_iff]
  · have hw' : (f.wait == 0) = false := by simpa using hw
    rw [Deploy.deploy_sync_eq f env hv hc' hw']
    simp [Deploy.trackTrace, ht, mem_ite_list, List.isEmpty_iff]

/-- C4 witness: a tracked deploy with one pending local delete warns and
still submits. -/
theorem deploy_warns_on_any_pending_delete_witness :
    Event.warned WarnMsg.deployWontDelete
      ∈ (Deploy.deploy trackingFlags deleteEnv).trace ∧
    Event.calledComponentSetDeploy
      ∈ (Deploy.deploy trackingFlags deleteEnv).trace := by
  have h := deploy_warns_on_any_pending_delete trackingFlags deleteEnv
    (by decide) (by decide) (by decide)
  exact ⟨h.1.mpr (by decide), h.2⟩

/-- C5: With `validateddeployrequestid` set, component-set resolution is
skipped entirely (`ComponentSetBuilder.build` is never called) and the
replay-by-id transport `deployRecentValidation` is called and produces
`this.deployResult`. -/
theorem deploy_replay_skips_resolution (f : Flags) (env : DeployEnv)
    (h : f.validateddeployrequestid.isSome = true) :
    Event.calledComponentSetBuild ∉ (Deploy.deploy f env).trace ∧
    Event.calledDeployRecentValidation ∈ (Deploy.deploy f env).trace ∧
    (Deploy.deploy f env).deployResult = some (deployRecentValidation env) := by
  rw [Deploy.deploy_replay_eq f env h]
  refine ⟨?_, ?_, rfl⟩ <;> simp [mem_ite_list]

/-- C5 witness: the sample replay invocation calls only the replay
transport. -/
theorem deploy_replay_skips_resolution_witness :
    Event.calledComponentSetBuild
      ∉ (Deploy.deploy replayFlags sampleEnv).trace ∧
    Event.calledDeployRecentValidation
      ∈ (Deploy.deploy replayFlags sampleEnv).trace ∧
    (Deploy.deploy replayFlags sampleEnv).deployResult
      = some (deployRecentValidation sampleEnv) :=
  deploy_replay_skips_resolution replayFlags sampleEnv (by decide)

/-- C6: During report polling exactly one error is recovered locally: an
`Error` whose message contains the client-timed-out wording is swallowed
and the command proceeds to fetch the deploy status and succeed; any other
error thrown by `pollStatus` propagates to the caller as a failure (the
status fetch in the `finally` block still runs either way). -/
theorem report_swallows_only_timeout (f : ReportFlags) (env : ReportEnv)
    (e : PollErr) (h : env.pollOutcome = some e) :
    (Report.swallows e = true →
      (Report.run f env).2
          = Except.ok (CommandResult.fullResult (some env.fetchedResult), 0)
      ∧ Event.fetchedDeployStatus ∈ (Report.run f env).1) ∧
    (Report.swallows e = false →
      (Report.run f env).2 = Except.error e
      ∧ Event.fetchedDeployStatus ∈ (Report.run f env).1) := by
  constructor <;> intro hs <;>
    simp [Report.run, Report.doReport, Report.formatResult,
      Report.resolveSuccess, h, hs, mem_ite_list]

/-- C6 witness: a poll that threw the client-timed-out error is swallowed;
the command fetches the status anyway and succeeds. -/
theorem report_swallows_only_timeout_witness :
    (Report.run sampleReportFlags timeoutReportEnv).2
        = Except.ok
            (CommandResult.fullResult (some timeoutReportEnv.fetchedResult), 0)
    ∧ Event.fetchedDeployStatus
        ∈ (Report.run sampleReportFlags timeoutReportEnv).1 :=
  (report_swallows_only_timeout sampleReportFlags timeoutReportEnv
      { isErrorInstance := true, message := "The client has timed out" }
      rfl).1 (by decide)

/-- C9: `Report.resolveSuccess` is a no-op, so every report invocation that
successfully fetches a deploy status resolves success: whatever the fetched
status — including `Failed` — the command returns the result with exit code
`0`; only a propagated request error makes the run fail. -/
theorem report_resolves_success_unconditionally (f : ReportFlags)
    (env : ReportEnv)
    (h : ∀ e, env.pollOutcome = some e → Report.swallows e = true) :
    (∀ n, Report.resolveSuccess n = n) ∧
    (Report.run f env).2
      = Except.ok (CommandResult.fullResult (some env.fetchedResult), 0) := by
  refine ⟨fun _ => rfl, ?_⟩
  rcases hp : env.pollOutcome with _ | e
  · simp [Report.run, Report.doReport, Report.formatResult,
      Report.resolveSuccess, hp]
  · have hs := h e hp
    simp [Report.run, Report.doReport, Report.formatResult,
      Report.resolveSuccess, hp, hs]

/-- C9 witness: a fetched deploy status of `Failed` still yields exit code
`0` with the result object returned. -/
theorem report_resolves_success_unconditionally_witness :
    (Report.run sampleReportFlags failedReportEnv).2
        = Except.ok
            (CommandResult.fullResult (some failedReportEnv.fetchedResult), 0)
    ∧ failedReportEnv.fetchedResult.status = DeployStatus.Failed := by
  refine ⟨(report_resolves_success_unconditionally sampleReportFlags
      failedReportEnv ?_).2, by decide⟩
  intro e he
  simp [failedReportEnv] at he

namespace Deploy

/-- In JSON mode `deploy()` neither renders progress nor displays anything;
`formatResult`'s display call is outside `deploy()` altogether. -/
theorem deploy_json_no_display (f : Flags) (env : DeployEnv)
    (h : f.json = true) :
    Event.renderedProgress ∉ (deploy f env).trace ∧
    Event.displayedResult ∉ (deploy f env).trace := by
  rcases hv : f.validateddeployrequestid with _ | v
  · by_cases hcb : conflictAborts f env = true
    · obtain ⟨⟨ht, hfo⟩, he⟩ := by
        simpa [conflictAborts, Bool.and_eq_true] using hcb
      rw [deploy_conflict_eq f env hv ht (by simpa using hfo)
        (by simpa using he)]
      simp [mem_ite_list]
    · have hc0 : conflictAborts f env = false := by simpa using hcb
      have hc' : (f.tracksource && !f.forceoverwrite
          && !(conflictPaths env.localChanges env.remoteChanges
                env.buildResult).isEmpty) = false := hc0
      by_cases hw : (f.wait == 0) = true
      · rw [deploy_async_eq f env hv hc' (by simpa using hw)]
        simp [trackTrace, mem_ite_list]
      · have hw' : (f.wait == 0) = false := by simpa using hw
        rw [deploy_sync_eq f env hv hc' hw']
        simp [trackTrace, mem_ite_list, h]
  · rw [deploy_replay_eq f env (by simp [hv])]
    simp [mem_ite_list]

/-- The fields of the `deploy()` outcome other than the trace do not depend
on the JSON flag. -/
theorem deploy_jsonOff_fields (f : Flags) (env : DeployEnv) :
    (deploy { f with json := false } env).error = (deploy f env).error
    ∧ (deploy { f with json := false } env).deployResult
        = (deploy f env).deployResult
    ∧ (deploy { f with json := false } env).asyncId = (deploy f env).asyncId
    ∧ (deploy { f with json := false } env).isAsync = (deploy f env).isAsync := by
  by_cases hv : f.validateddeployrequestid = none
  · by_cases hcb : conflictAborts f env = true
    · obtain ⟨⟨ht, hfo⟩, he⟩ := by
        simpa [conflictAborts, Bool.and_eq_true] using hcb
      rw [deploy_conflict_eq f env hv ht (by simpa using hfo)
          (by simpa using he),
        deploy_conflict_eq { f with json := false } env hv ht
          (by simpa using hfo) (by simpa using he)]
      simp
    · have hc0 : conflictAborts f env = false := by simpa using hcb
      have hc' : (f.tracksource && !f.forceoverwrite
          && !(conflictPaths env.localChanges env.remoteChanges
                env.buildResult).isEmpty) = false := hc0
      by_cases hw : (f.wait == 0) = true
      · rw [deploy_async_eq f env hv hc' (by simpa using hw),
          deploy_async_eq { f with json := false } env hv hc'
            (by simpa using hw)]
        simp
      · have hw' : (f.wait == 0) = false := by simpa using hw
        rw [deploy_sync_eq f env hv hc' hw',
          deploy_sync_eq { f with json := false } env hv hc' hw']
        simp
  · have hs : f.validateddeployrequestid.isSome = true :=
      Option.ne_none_iff_isSome.mp hv
    rw [deploy_replay_eq f env hs,
      deploy_replay_eq { f with json := false } env hs]
    simp

/-- The command's final value, past accepted flag parsing, as a function of
the `deploy()` outcome fields. -/
theorem run_snd_char (f : Flags) (env : DeployEnv)
    (hA : flagsAccepted f = true) :
    (run f env).2 =
      match (deploy f env).error with
      | some e => Except.error e
      | none =>
        Except.ok (if (deploy f env).isAsync then
            CommandResult.asyncResult (deploy f env).asyncId
          else CommandResult.fullResult (deploy f env).deployResult) := by
  simp only [run, hA, Bool.not_true, Bool.false_eq_true, if_false]
  rcases he : (deploy f env).error with _ | e <;> simp [he, formatResult]

end Deploy

/-- C7: In JSON (machine) output mode neither command emits anything to the
display channel — no progress rendering and no formatter display appear in
the trace — while the machine-serializable value of the run is exactly the
one a non-JSON run would return. -/
theorem json_mode_suppresses_display (f : Flags) (env : DeployEnv)
    (rf : ReportFlags) (renv : ReportEnv)
    (hf : f.json = true) (hrf : rf.json = true) :
    (Event.renderedProgress ∉ (Deploy.run f env).1
      ∧ Event.displayedResult ∉ (Deploy.run f env).1
      ∧ (Deploy.run f env).2 = (Deploy.run { f with json := false } env).2)
    ∧ (Event.renderedProgress ∉ (Report.run rf renv).1
      ∧ Event.displayedResult ∉ (Report.run rf renv).1
      ∧ (Report.run rf renv).2 = (Report.run { rf with json := false } renv).2) := by
  constructor
  · have hmem := Deploy.deploy_json_no_display f env hf
    by_cases hA : Deploy.flagsAccepted f = true
    · refine ⟨?_, ?_, ?_⟩
      · simp only [Deploy.run, hA, Bool.not_true, Bool.false_eq_true, if_false]
        rcases he : (Deploy.deploy f env).error with _ | e <;>
          simp [he, Deploy.formatResult, mem_ite_list, hmem.1, hf]
      · simp only [Deploy.run, hA, Bool.not_true, Bool.false_eq_true, if_false]
        rcases he : (Deploy.deploy f env).error with _ | e <;>
          simp [he, Deploy.formatResult, mem_ite_list, hmem.2, hf]
      · have hA' : Deploy.flagsAccepted { f with json := false } = true := hA
        rw [Deploy.run_snd_char f env hA, Deploy.run_snd_char _ env hA',
          (Deploy.deploy_jsonOff_fields f env).1,
          (Deploy.deploy_jsonOff_fields f env).2.1,
          (Deploy.deploy_jsonOff_fields f env).2.2.1,
          (Deploy.deploy_jsonOff_fields f env).2.2.2]
    · have hA' : Deploy.flagsAccepted f = false := by simpa using hA
      have hA'' : Deploy.flagsAccepted { f with json := false } = false := hA'
      simp [Deploy.run, hA', hA'']
  · rcases hp : renv.pollOutcome with _ | e
    · simp [Report.run, Report.doReport, Report.formatResult,
        Report.resolveSuccess, hp, hrf, mem_ite_list]
    · by_cases hs : Report.swallows e = true <;>
        simp [Report.run, Report.doReport, Report.formatResult,
          Report.resolveSuccess, hp, hrf, hs, mem_ite_list]

/-- C7 witness: a JSON-mode replay deploy and a JSON-mode report display
nothing and return the same values as their non-JSON counterparts. -/
theorem json_mode_suppresses_display_witness :
    (Event.renderedProgress
        ∉ (Deploy.run { replayFlags with json := true } sampleEnv).1
      ∧ Event.displayedResult
        ∉ (Deploy.run { replayFlags with json := true } sampleEnv).1
      ∧ (Deploy.run { replayFlags with json := true } sampleEnv).2
        = (Deploy.run { { replayFlags with json := true } with json := false }
            sampleEnv).2)
    ∧ (Event.renderedProgress
        ∉ (Report.run { sampleReportFlags with json := true } failedReportEnv).1
      ∧ Event.displayedResult
        ∉ (Report.run { sampleReportFlags with json := true } failedReportEnv).1
      ∧ (Report.run { sampleReportFlags with json := true } failedReportEnv).2
        = (Report.run { { sampleReportFlags with json := true } with
            json := false } failedReportEnv).2) :=
  json_mode_suppresses_display { replayFlags with json := true } sampleEnv
    { sampleReportFlags with json := true } failedReportEnv rfl rfl

/-- C8 counterexample: the claim says the `DeployResult` field is populated
only when a status poll occurred and never for a `wait = 0` invocation.
But in validated-replay mode with `wait = 0`, `this.deployResult` is
assigned from `deployRecentValidation` (deploy.ts line 174) although
`pollStatus` is never called. -/
theorem deploy_result_populated_without_poll :
    replayFlags.wait = 0 ∧
    (Deploy.deploy replayFlags sampleEnv).deployResult.isSome = true ∧
    Event.calledPollStatus ∉ (Deploy.deploy replayFlags sampleEnv).trace := by
  decide

/-- C8 amended: `this.deployResult` is populated iff a status poll occurred
or the invocation was a validated replay (which always populates it from
the replay-by-id call, even when `wait = 0`); the `postdeploy` lifecycle
event fires exactly when `this.deployResult` is populated. -/
theorem deploy_result_iff_poll_or_replay (f : Flags) (env : DeployEnv) :
    ((Deploy.deploy f env).deployResult.isSome = true ↔
      (Event.calledPollStatus ∈ (Deploy.deploy f env).trace
        ∨ f.validateddeployrequestid.isSome = true)) ∧
    (Event.emittedPostdeploy ∈ (Deploy.deploy f env).trace ↔
      (Deploy.deploy f env).deployResult.isSome = true) := by
  refine ⟨?_, Deploy.mem_trace_postdeploy f env⟩
  rw [Deploy.deployResult_isSome_iff, Deploy.mem_trace_pollStatus]
  rcases hv : f.validateddeployrequestid with _ | v <;> simp [hv]

/-- C10: The `predeploy` lifecycle event is never emitted in
validated-replay mode; on the component-set branch, whenever `deploy()`
does not abort, `predeploy` is emitted immediately before the submission
call, for asynchronous and synchronous deploys alike. -/
theorem predeploy_only_before_submission (f : Flags) (env : DeployEnv) :
    (f.validateddeployrequestid.isSome = true →
      Event.emittedPredeploy ∉ (Deploy.deploy f env).trace) ∧
    (f.validateddeployrequestid = none → (Deploy.deploy f env).error = none →
      [Event.emittedPredeploy, Event.calledComponentSetDeploy]
        <:+: (Deploy.deploy f env).trace) := by
  constructor
  · intro h
    rw [Deploy.deploy_replay_eq f env h]
    simp [mem_ite_list]
  · intro hv he
    by_cases hcb : Deploy.conflictAborts f env = true
    · exfalso
      obtain ⟨⟨ht, hfo⟩, hee⟩ := by
        simpa [Deploy.conflictAborts, Bool.and_eq_true] using hcb
      rw [Deploy.deploy_conflict_eq f env hv ht (by simpa using hfo)
        (by simpa using hee)] at he
      simp at he
    · have hc0 : Deploy.conflictAborts f env = false := by simpa using hcb
      have hc' : (f.tracksource && !f.forceoverwrite
          && !(conflictPaths env.localChanges env.remoteChanges
                env.buildResult).isEmpty) = false := hc0
      by_cases hw : (f.wait == 0) = true
      · rw [Deploy.deploy_async_eq f env hv hc' (by simpa using hw)]
        exact ⟨(if f.coverageformatters.isSome || f.junit
            then [Event.warned WarnMsg.asyncCoverageJunitWarning] else [])
          ++ [Event.calledComponentSetBuild] ++ Deploy.trackTrace f env,
          [], by simp⟩
      · have hw' : (f.wait == 0) = false := by simpa using hw
        rw [Deploy.deploy_sync_eq f env hv hc' hw']
        exact ⟨[Event.calledComponentSetBuild] ++ Deploy.trackTrace f env,
          (if !f.json then [Event.renderedProgress] else [])
            ++ [Event.calledPollStatus, Event.emittedPostdeploy], by simp⟩

/-- C10 witness: the sample replay invocation emits no `predeploy`, while a
plain `--sourcepath` invocation emits it immediately before the submission
call. -/
theorem predeploy_only_before_submission_witness :
    Event.emittedPredeploy ∉ (Deploy.deploy replayFlags sampleEnv).trace ∧
    [Event.emittedPredeploy, Event.calledComponentSetDeploy]
      <:+: (Deploy.deploy pathFlags sampleEnv).trace :=
  ⟨(predeploy_only_before_submission replayFlags sampleEnv).1 (by decide),
   (predeploy_only_before_submission pathFlags sampleEnv).2 (by decide)
     (by decide)⟩
